import Mathlib

/-!
Verification of the code-generation engine of the typegraphql-prisma
generator.  The embedding follows the TypeScript sources:

* `src/generator/type-class.ts` — `generateInputTypeText` and
  `generateInputTypeClassFromType` (pure text / declarative-structure
  rendering of input-type classes);
* the `InputBlockGenerator` (block generator for the `inputs` block);
* the `CodeGenerator` class of `generate-code.ts` (worker-parallel
  variant): emission-mode resolution, transpile batching, worker
  failure handling and the best-effort formatter step.

Machine-facing effects (file system, worker threads, subprocesses,
wall-clock time) are embedded as explicit data: writes become lists of
`(path, content)` pairs and the outcome of each external interaction is
a field of a `RunEnv` record that the embedded control flow consumes.
-/

/-! ## Schema IR data model (the shapes read by `type-class.ts`) -/

/-- A resolved target-type descriptor of an input-type field
(`field.selectedInputType` in the source): a location tag
(for example `inputObjectTypes`, `enumTypes`, `scalar`) plus the
referenced type name. -/
structure SchemaArgInputType where
  isList : Bool
  location : String
  type : String
deriving DecidableEq

/-- An input-type field as consumed by `generateInputTypeText` /
`generateInputTypeClassFromType`: storage name, exposed name
(`typeName`), requiredness, omission flag, remap flag
(`hasMappedName`), rendered TS/GraphQL type strings, and the selected
input type descriptor. -/
structure SchemaArg where
  name : String
  typeName : String
  isRequired : Bool
  isOmitted : Bool
  hasMappedName : Bool
  typeGraphQLType : String
  fieldTSType : String
  selectedInputType : SchemaArgInputType
deriving DecidableEq

/-- An input type of the Document: name plus ordered field list. -/
structure InputType where
  typeName : String
  fields : List SchemaArg
deriving DecidableEq

/-- The slice of `GeneratorOptions` read by the input-type renderers. -/
structure GeneratorOptions where
  emitIsAbstract : Bool
  customPrismaImportPath : Option String
  relativePrismaOutputPath : String
  absolutePrismaOutputPath : Option String
deriving DecidableEq

/-! ## Path joining

`path.posix.join` as used by the generator: the arguments are joined
with `/` and the result is normalised.  All call sites pass relative,
slash-free segments (folder names, type names) except the prisma
output path, which is passed through verbatim as a single segment;
`..` segments collapse a preceding non-`..` segment. -/

/-- Model of `path.posix.join` for the (relative) paths the generator
builds.  Empty and `.` segments are dropped, `..` pops a preceding
non-`..` segment, and the result is `"."` when nothing remains. -/
def posixJoin (parts : List String) : String :=
  let segs := parts.filter (fun s => s != "" && s != ".")
  let norm := segs.foldl
    (fun acc s =>
      if s = ".." then
        match acc.getLast? with
        | some prev => if prev = ".." then acc ++ [".."] else acc.dropLast
        | none => [".."]
      else acc ++ [s])
    []
  if norm.isEmpty then "." else String.intercalate ("/") norm

/-! ## `generateInputTypeText` (type-class.ts, lines 273–397) -/

/-- `fieldsToEmit`: the non-omitted fields of the type. -/
def fieldsToEmitOf (fields : List SchemaArg) : List SchemaArg :=
  fields.filter (fun f => !f.isOmitted)

/-- `mappedFields`: the non-omitted fields whose exposed name is
remapped. -/
def mappedFieldsOf (fields : List SchemaArg) : List SchemaArg :=
  (fieldsToEmitOf fields).filter (fun f => f.hasMappedName)

/-- First-occurrence deduplication followed by an alphabetical sort:
the embedding of `[...new Set(xs)].sort()`.  Because the result is
sorted and duplicate-free it does not depend on which occurrence the
deduplication keeps. -/
def dedupSort (xs : List String) : List String :=
  List.insertionSort (· ≤ ·) xs.dedup

/-- The deduplicated, sorted cross-referenced input-type import names
(lines 302–311): field target types located in `inputObjectTypes`,
excluding the type's own name. -/
def inputTypeImportNames (inputType : InputType) : List String :=
  dedupSort
    (((inputType.fields.filter
          (fun f => f.selectedInputType.location == "inputObjectTypes")).map
        (fun f => f.selectedInputType.type)).filter
      (fun n => n != inputType.typeName))

/-- The deduplicated, sorted enum import names (lines 317–324). -/
def enumImportNames (inputType : InputType) : List String :=
  dedupSort
    (((inputType.fields.map (fun f => f.selectedInputType)).filter
        (fun ft => ft.location == "enumTypes")).map
      (fun ft => ft.type))

/-- `hasBytes` (lines 290–292): some field's selected input type is
`Bytes`. -/
def hasBytesField (inputType : InputType) : Bool :=
  inputType.fields.any (fun f => f.selectedInputType.type == "Bytes")

/-- The custom-scalars import line (lines 293–300): `DecimalJSScalar`
always, plus `BytesScalar` when a `Bytes` field is present. -/
def customScalarsImportLine (inputType : InputType) : String :=
  if hasBytesField inputType then
    "import \x7b DecimalJSScalar, BytesScalar \x7d from \"" ++
      posixJoin ["..", "..", "scalars"] ++ "\";"
  else
    "import \x7b DecimalJSScalar \x7d from \"" ++
      posixJoin ["..", "..", "scalars"] ++ "\";"

/-- `prismaImportPath` (lines 282–284). -/
def prismaImportPathOf (options : GeneratorOptions) : String :=
  options.customPrismaImportPath.getD
    (posixJoin [options.relativePrismaOutputPath, "client"])

/-- `prismaModuleSpecifier` (lines 285–287). -/
def prismaModuleSpecifierOf (options : GeneratorOptions) : String :=
  options.absolutePrismaOutputPath.getD
    (posixJoin ["..", "..", prismaImportPathOf options])

/-- The `Prisma` namespace import line (line 288). -/
def prismaImportLine (options : GeneratorOptions) : String :=
  "import \x7b Prisma \x7d from \"" ++ prismaModuleSpecifierOf options ++ "\";"

/-- A cross-referenced input-type import line (lines 312–315). -/
def inputImportLine (importName : String) : String :=
  "import \x7b " ++ importName ++ " \x7d from \"" ++
    posixJoin ["..", "inputs", importName] ++ "\";"

/-- An enum import line (lines 325–328). -/
def enumImportLine (enumName : String) : String :=
  "import \x7b " ++ enumName ++ " \x7d from \"" ++
    posixJoin ["..", "..", "enums", enumName] ++ "\";"

/-- The `@TypeGraphQL.InputType(...)` decorator line (lines 332–337). -/
def inputTypeDecoratorLine (inputType : InputType)
    (options : GeneratorOptions) : String :=
  "@TypeGraphQL.InputType(\"" ++ inputType.typeName ++ "\", " ++
    (if options.emitIsAbstract then "\x7b isAbstract: true \x7d" else "\x7b\x7d")
    ++ ")"

/-- A field's property declaration line (`name!: T;` or `name?: T;`,
lines 348–352 / 356–361). -/
def inputFieldDeclLine (f : SchemaArg) : String :=
  "    " ++ f.name ++ (if f.isRequired then "!" else "?") ++ ": " ++
    f.fieldTSType ++ ";"

/-- A field's `@TypeGraphQL.Field(...)` decorator line
(lines 354–355 / 373–375). -/
def inputFieldDecoratorLine (f : SchemaArg) : String :=
  "    @TypeGraphQL.Field(_type => " ++ f.typeGraphQLType ++
    ", \x7b nullable: " ++ (if f.isRequired then "false" else "true") ++
    " \x7d)"

/-- The lines one field contributes to the declaration section of the
class body (lines 347–362): mapped fields get a bare declaration, the
rest a decorated one. -/
def fieldDeclBlock (f : SchemaArg) : List String :=
  if f.hasMappedName then [inputFieldDeclLine f]
  else [inputFieldDecoratorLine f, inputFieldDeclLine f]

/-- The accessor pair a mapped field contributes (lines 369–391): a
decorated getter and a setter under the exposed name, backed by the
storage-name property. -/
def accessorBlock (f : SchemaArg) : List String :=
  [inputFieldDecoratorLine f,
   "    get " ++ f.typeName ++ "() \x7b",
   "        return this." ++ f.name ++ ";",
   "    \x7d",
   "",
   "    set " ++ f.typeName ++ "(" ++ f.name ++ ": " ++ f.fieldTSType ++
     ") \x7b",
   "        this." ++ f.name ++ " = " ++ f.name ++ ";",
   "    \x7d"]

/-- The first `for` loop of the body (lines 343–367): one declaration
block per field to emit, with a blank separator line after every block
except the last one when no mapped fields follow. -/
def plainFieldsLoop : List SchemaArg → Bool → List String
  | [], _ => []
  | [f], noMapped => fieldDeclBlock f ++ (if noMapped then [] else [""])
  | f :: g :: rest, noMapped =>
    fieldDeclBlock f ++ [""] ++ plainFieldsLoop (g :: rest) noMapped

/-- The second `for` loop of the body (lines 369–391): one accessor
pair per mapped field, blank-line separated. -/
def mappedFieldsLoop : List SchemaArg → List String
  | [] => []
  | [f] => accessorBlock f
  | f :: g :: rest => accessorBlock f ++ [""] ++ mappedFieldsLoop (g :: rest)

/-- The class body emitted between `export class … {` and `}`. -/
def classBodyLines (fields : List SchemaArg) : List String :=
  plainFieldsLoop (fieldsToEmitOf fields) (mappedFieldsOf fields).isEmpty ++
    mappedFieldsLoop (mappedFieldsOf fields)

/-- The full line list pushed by `generateInputTypeText`
(lines 277–394), in push order. -/
def generateInputTypeTextLines (inputType : InputType)
    (options : GeneratorOptions) : List String :=
  "import * as TypeGraphQL from \"type-graphql\";" ::
  "import * as GraphQLScalars from \"graphql-scalars\";" ::
  prismaImportLine options ::
  customScalarsImportLine inputType ::
  ((inputTypeImportNames inputType).map inputImportLine ++
   (enumImportNames inputType).map enumImportLine ++
   [""] ++
   [inputTypeDecoratorLine inputType options,
    "export class " ++ inputType.typeName ++ " \x7b"] ++
   classBodyLines inputType.fields ++
   ["\x7d", ""])

/-- `generateInputTypeText` (lines 273–397): the pushed lines joined
with newlines. -/
def generateInputTypeText (inputType : InputType)
    (options : GeneratorOptions) : String :=
  String.intercalate ("\n") (generateInputTypeTextLines inputType options)

/-! ## `generateInputTypeClassFromType` (type-class.ts, lines 160–271)

The ts-morph variant stages a declarative class structure.  We embed
the structure the `sourceFile.addClass` call receives (decorator
arguments, properties, get/set accessors); file-path plumbing and
the import helper calls (whose implementations live in `imports.ts`,
outside the sources in scope) are not part of the structure. -/

structure DecoratorStructure where
  name : String
  arguments : List String
deriving DecidableEq

structure PropertyStructure where
  name : String
  type : String
  hasExclamationToken : Bool
  hasQuestionToken : Bool
  decorators : List DecoratorStructure
deriving DecidableEq

structure GetAccessorStructure where
  name : String
  type : String
  hasExclamationToken : Bool
  hasQuestionToken : Bool
  statements : List String
  decorators : List DecoratorStructure
deriving DecidableEq

structure SetAccessorStructure where
  name : String
  type : String
  hasExclamationToken : Bool
  hasQuestionToken : Bool
  parameters : List (String × String)
  statements : List String
deriving DecidableEq

structure ClassDeclStructure where
  name : String
  isExported : Bool
  decorators : List DecoratorStructure
  properties : List PropertyStructure
  getAccessors : List GetAccessorStructure
  setAccessors : List SetAccessorStructure
deriving DecidableEq

/-- The `TypeGraphQL.Field` decorator structure carried by plain
properties and by getters (lines 224–232 / 246–254). -/
def inputTypeFieldDecorator (f : SchemaArg) : DecoratorStructure :=
  { name := "TypeGraphQL.Field",
    arguments := ["_type => " ++ f.typeGraphQLType,
                  "\x7b nullable: " ++
                    (if f.isRequired then "false" else "true") ++ " \x7d"] }

/-- The property structure for one field to emit (lines 214–235):
mapped fields carry no decorator, the rest carry the field decorator. -/
def inputTypePropertyOf (f : SchemaArg) : PropertyStructure :=
  { name := f.name,
    type := f.fieldTSType,
    hasExclamationToken := f.isRequired,
    hasQuestionToken := !f.isRequired,
    decorators :=
      if f.hasMappedName then [] else [inputTypeFieldDecorator f] }

/-- The getter structure for one mapped field (lines 236–256). -/
def getAccessorOf (f : SchemaArg) : GetAccessorStructure :=
  { name := f.typeName,
    type := f.fieldTSType,
    hasExclamationToken := f.isRequired,
    hasQuestionToken := !f.isRequired,
    statements := ["return this." ++ f.name ++ ";"],
    decorators := [inputTypeFieldDecorator f] }

/-- The setter structure for one mapped field (lines 257–269). -/
def setAccessorOf (f : SchemaArg) : SetAccessorStructure :=
  { name := f.typeName,
    type := f.fieldTSType,
    hasExclamationToken := f.isRequired,
    hasQuestionToken := !f.isRequired,
    parameters := [(f.name, f.fieldTSType)],
    statements := ["this." ++ f.name ++ " = " ++ f.name ++ ";"] }

/-- `generateInputTypeClassFromType` (lines 160–271): the class
declaration structure staged via `sourceFile.addClass`. -/
def generateInputTypeClassFromType (inputType : InputType)
    (options : GeneratorOptions) : ClassDeclStructure :=
  { name := inputType.typeName,
    isExported := true,
    decorators :=
      [{ name := "TypeGraphQL.InputType",
         arguments :=
           ["\"" ++ inputType.typeName ++ "\"",
            if options.emitIsAbstract then "\x7b isAbstract: true \x7d"
            else "\x7b\x7d"] }],
    properties := (fieldsToEmitOf inputType.fields).map inputTypePropertyOf,
    getAccessors := (mappedFieldsOf inputType.fields).map getAccessorOf,
    setAccessors := (mappedFieldsOf inputType.fields).map setAccessorOf }

/-! ## `InputBlockGenerator` (block generator for the `inputs` block) -/

/-- Modelled from the spec: the directory convention names one
subdirectory per block kind; the `config` module defining these folder
names is outside the sources in scope. -/
def resolversFolderName : String := "resolvers"

/-- Modelled from the spec: the inputs subdirectory name, from the
directory convention (the `config` module is outside the sources in
scope). -/
def inputsFolderName : String := "inputs"

/-- The slice of the Document the input block generator reads. -/
structure DmmfSchema where
  inputTypes : List InputType
deriving DecidableEq

/-- The enriched Document: input types plus the configured block
allow-list. -/
structure DmmfDocument where
  schema : DmmfSchema
  blocksToEmit : List String
deriving DecidableEq

/-- Modelled from the spec: `shouldGenerateBlock` (defined in the
Document class, outside the sources in scope) tests membership of the
block kind in the configured block allow-list. -/
def DmmfDocument.shouldGenerateBlock (d : DmmfDocument)
    (block : String) : Bool :=
  d.blocksToEmit.contains block

/-- The `GenerationMetrics` record a block generator returns.
`timeElapsed` is wall-clock time; only its presence is modelled. -/
structure GenerationMetrics where
  itemsGenerated : Nat
  timeElapsed : Option Unit
  directWrittenFilePaths : Option (List String)
deriving DecidableEq

/-- The observable effects of one `InputBlockGenerator.generate` call:
the returned metrics, the direct `writeFileSync` writes as
`(path, content)` pairs, and the file paths staged into the ts-morph
project (the barrel file, whose content is produced by
`generateInputsBarrelFile` in `imports.ts`, outside the sources in
scope). -/
structure InputBlockResult where
  metrics : GenerationMetrics
  fsWrites : List (String × String)
  stagedFiles : List String
deriving DecidableEq

/-- `InputBlockGenerator.generate`: returns `{itemsGenerated: 0}` and
performs no write when the `inputs` block is not generated; otherwise
writes one file per input type via `generateInputTypeText` and stages
the `index.ts` barrel file. -/
def InputBlockGenerator.generate (dmmfDocument : DmmfDocument)
    (options : GeneratorOptions) (baseDirPath : String) : InputBlockResult :=
  if dmmfDocument.shouldGenerateBlock ("inputs") then
    let inputsDirPath :=
      posixJoin [baseDirPath, resolversFolderName, inputsFolderName]
    let fsWrites := dmmfDocument.schema.inputTypes.map
      (fun t => (posixJoin [inputsDirPath, t.typeName ++ ".ts"],
                 generateInputTypeText t options))
    { metrics :=
        { itemsGenerated := dmmfDocument.schema.inputTypes.length,
          timeElapsed := some (),
          directWrittenFilePaths := some (fsWrites.map Prod.fst) },
      fsWrites := fsWrites,
      stagedFiles := [posixJoin [inputsDirPath, "index.ts"]] }
  else
    { metrics :=
        { itemsGenerated := 0,
          timeElapsed := none,
          directWrittenFilePaths := none },
      fsWrites := [],
      stagedFiles := [] }

/-! ## `CodeGenerator` (generate-code.ts, worker-parallel variant) -/

/-- The value space of the `formatGeneratedCode` option:
`boolean | "prettier" | "tsc" | "biome"` (absence is `Option.none`). -/
inductive FormatCodeOption where
  | asBool (b : Bool)
  | prettier
  | tsc
  | biome
deriving DecidableEq

/-- A resolved formatter tool. -/
inductive FormatTool where
  | prettier
  | tsc
  | biome
deriving DecidableEq

/-- The tool name interpolated into log messages. -/
def formatToolName : FormatTool → String
  | FormatTool.prettier => "prettier"
  | FormatTool.tsc => "tsc"
  | FormatTool.biome => "biome"

/-- `resolveFormatGeneratedCodeOption` (lines 74–88): no formatting by
default, explicit `true` means `tsc`, a tool string names itself. -/
def resolveFormatGeneratedCodeOption :
    Option FormatCodeOption → Option FormatTool
  | none => none
  | some (FormatCodeOption.asBool false) => none
  | some (FormatCodeOption.asBool true) => some FormatTool.tsc
  | some FormatCodeOption.prettier => some FormatTool.prettier
  | some FormatCodeOption.tsc => some FormatTool.tsc
  | some FormatCodeOption.biome => some FormatTool.biome

/-- Model of JavaScript `String.prototype.includes`. -/
def stringIncludes (s : String) (sub : String) : Bool :=
  decide (sub.toList <:+: s.toList)

/-- The emission-mode resolution (lines 115–117):
`options.emitTranspiledCode ?? options.outputDirPath.includes("node_modules")`. -/
def CodeGenerator.resolveEmitTranspiledCode (emitTranspiledCode : Option Bool)
    (outputDirPath : String) : Bool :=
  emitTranspiledCode.getD (stringIncludes outputDirPath ("node_modules"))

/-- `Math.ceil (a / b)` on naturals (for `b > 0`). -/
def ceilNatDiv (a b : Nat) : Nat := (a + b - 1) / b

/-- `jsWorkerCount` (line 352):
`Math.min(Math.max(1, os.cpus().length - 2), 8)`. -/
def jsWorkerCount (cpus : Nat) : Nat := min (max 1 (cpus - 2)) 8

/-- The batching loop (lines 364–368) with an explicit fuel equal to
the list length; every iteration consumes at least one element when
the batch size is positive, which is the only case the source reaches
(`batchSize = 0` only when the file list is empty, and then the loop
body never runs). -/
def chunkListAux {α : Type} (bs : Nat) : Nat → List α → List (List α)
  | _, [] => []
  | 0, _ => []
  | fuel + 1, l => l.take bs :: chunkListAux bs fuel (l.drop bs)

/-- `jsBatches` construction: successive `slice(i, i + batchSize)`
chunks of the file list. -/
def chunkList {α : Type} (bs : Nat) (l : List α) : List (List α) :=
  chunkListAux bs l.length l

/-- The transpile batches of a run (lines 352, 364–368). -/
def jsBatches (allFilePaths : List String) (cpus : Nat) : List (List String) :=
  chunkList (ceilNatDiv allFilePaths.length (jsWorkerCount cpus)) allFilePaths

/-- How one worker promise settles (lines 382–387 / 401–406): an
`error` event rejects with that error, exit code `0` resolves, and a
nonzero exit code rejects with the stage-tagged message. -/
def workerSettle (stage : String) (outcome : Except String Nat) :
    Except String Unit :=
  match outcome with
  | Except.error e => Except.error e
  | Except.ok code =>
    if code = 0 then Except.ok ()
    else Except.error (stage ++ " worker exited with code " ++ toString code)

/-- `Promise.all` over already-settled member promises: rejects with a
member rejection (modelled as the first in batch order) or resolves
when all resolve. -/
def promiseAll (results : List (Except String Unit)) : Except String Unit :=
  results.foldr
    (fun r acc =>
      match r with
      | Except.error e => Except.error e
      | Except.ok _ => acc)
    (Except.ok ())

/-- The outcomes of everything external to one `CodeGenerator.generate`
run: hardware parallelism, block generation, ts-morph saves, the
per-batch transpile workers, the declaration worker and the formatter
subprocess. -/
structure RunEnv where
  cpus : Nat
  blockOutcome : Except String (List String)
  projectFiles : List String
  saveOutcome : Except String Unit
  jsWorkerOutcomes : Nat → Except String Nat
  dtsWorkerOutcome : Except String Nat
  formatterOutcome : Except String Unit

/-- `fastEmitTranspiledCode` (lines 321–426): batch the file list, run
one worker per batch plus the declaration worker, gather both via
`allSettled`, then fail on a transpile rejection first and a
declaration rejection second. -/
def CodeGenerator.fastEmitTranspiledCode (env : RunEnv)
    (allFilePaths : List String) : Except String Unit :=
  let batches := jsBatches allFilePaths env.cpus
  let jsResult := promiseAll
    ((List.range batches.length).map
      (fun i => workerSettle ("JS") (env.jsWorkerOutcomes i)))
  let dtsResult := workerSettle ("DTS") env.dtsWorkerOutcome
  match jsResult with
  | Except.error reason => Except.error ("JS emission failed: " ++ reason)
  | Except.ok _ =>
    match dtsResult with
    | Except.error reason => Except.error ("DTS emission failed: " ++ reason)
    | Except.ok _ => Except.ok ()

/-- The slice of the generator options `CodeGenerator.generate`
branches on. -/
structure CodeGenOptions where
  emitTranspiledCode : Option Bool
  outputDirPath : String
  formatGeneratedCode : Option FormatCodeOption
deriving DecidableEq

/-- The observable successful result of a run: the messages sent to
the logging callback and the directly written file paths collected
from the block generators. -/
structure RunResult where
  logs : List String
  writtenFilePaths : List String
deriving DecidableEq

/-- The emission section of `generate` (lines 219–234): save in source
mode, `fastEmitTranspiledCode` in compiled mode. -/
def CodeGenerator.emitStep (env : RunEnv) (emitTranspiledCode : Bool)
    (directWrittenFilePaths : List String) : Except String Unit :=
  if emitTranspiledCode then
    CodeGenerator.fastEmitTranspiledCode env
      (env.projectFiles ++ directWrittenFilePaths)
  else env.saveOutcome

/-- The formatter section of `generate` (lines 236–314): skipped when
no formatter is resolved, otherwise the `try/catch` block logs the
start message and, on a subprocess failure, additionally the warning.
It never fails. -/
def CodeGenerator.formatStepLogs (formatTool : Option FormatTool)
    (outcome : Except String Unit) : List String :=
  match formatTool with
  | none => []
  | some tool =>
    match outcome with
    | Except.ok _ =>
      ["Formatting generated code with " ++ formatToolName tool]
    | Except.error e =>
      ["Formatting generated code with " ++ formatToolName tool,
       "Warning: Code formatting failed: " ++ e]

/-- `CodeGenerator.generate` (lines 90–319), distilled to the control
flow the claims are about: resolve the formatter and the emission
mode, run block generation (fatal on failure), emit (fatal on
failure), then run the formatter step, whose failure only adds a
warning through the logging callback.  Metrics emission and the
staging of the auxiliary files (which end up in `projectFiles`) are
not modelled; log messages on failing runs are dropped with the
failure. -/
def CodeGenerator.generate (env : RunEnv) (opts : CodeGenOptions) :
    Except String RunResult :=
  match env.blockOutcome with
  | Except.error e => Except.error e
  | Except.ok directWrittenFilePaths =>
    match CodeGenerator.emitStep env
        (CodeGenerator.resolveEmitTranspiledCode opts.emitTranspiledCode
          opts.outputDirPath) directWrittenFilePaths with
    | Except.error e => Except.error e
    | Except.ok _ =>
      Except.ok
        { logs :=
            ["Transforming dmmfDocument...",
             "Generate auxiliary files",
             "Emitting final code"] ++
            (if CodeGenerator.resolveEmitTranspiledCode
                opts.emitTranspiledCode opts.outputDirPath then
              ["Transpiling generated code"]
             else ["Saving generated code"]) ++
            CodeGenerator.formatStepLogs
              (resolveFormatGeneratedCodeOption opts.formatGeneratedCode)
              env.formatterOutcome,
          writtenFilePaths := directWrittenFilePaths }

/-- `Except` success as a boolean observation. -/
def isOkResult {ε α : Type} : Except ε α → Bool
  | Except.ok _ => true
  | Except.error _ => false

/-! ## Concrete instances used by witnesses and counterexamples -/

/-- A concrete options record. -/
def oEx : GeneratorOptions :=
  { emitIsAbstract := false,
    customPrismaImportPath := none,
    relativePrismaOutputPath := "../prisma/client",
    absolutePrismaOutputPath := none }

/-- A plain (unmapped) concrete field. -/
def fPlain : SchemaArg :=
  { name := "title",
    typeName := "title",
    isRequired := true,
    isOmitted := false,
    hasMappedName := false,
    typeGraphQLType := "String",
    fieldTSType := "string",
    selectedInputType := { isList := false, location := "scalar", type := "String" } }

/-- A concrete field with a remapped exposed name. -/
def fMapped : SchemaArg :=
  { name := "author_id",
    typeName := "authorId",
    isRequired := false,
    isOmitted := false,
    hasMappedName := true,
    typeGraphQLType := "TypeGraphQL.Int",
    fieldTSType := "number",
    selectedInputType := { isList := false, location := "scalar", type := "Int" } }

/-- A concrete omitted field. -/
def fOmit : SchemaArg :=
  { name := "secret",
    typeName := "secret",
    isRequired := false,
    isOmitted := true,
    hasMappedName := false,
    typeGraphQLType := "String",
    fieldTSType := "string",
    selectedInputType := { isList := false, location := "scalar", type := "String" } }

/-- A concrete input type with a plain, a mapped and an omitted field. -/
def tEx : InputType :=
  { typeName := "PostCreateInput", fields := [fPlain, fMapped, fOmit] }

/-- A concrete input type with no fields at all. -/
def tEmpty : InputType := { typeName := "EmptyInput", fields := [] }

/-- A Document whose allow-list excludes the `inputs` block. -/
def docExcl : DmmfDocument :=
  { schema := { inputTypes := [tEx] }, blocksToEmit := ["enums", "models"] }

/-- A Document whose allow-list includes the `inputs` block. -/
def docIncl : DmmfDocument :=
  { schema := { inputTypes := [tEx, tEmpty] }, blocksToEmit := ["inputs"] }

/-- A run environment in which every external interaction succeeds. -/
def envOk : RunEnv :=
  { cpus := 4,
    blockOutcome := Except.ok ["/out/resolvers/inputs/PostCreateInput.ts"],
    projectFiles := ["/out/index.ts"],
    saveOutcome := Except.ok (),
    jsWorkerOutcomes := fun _ => Except.ok 0,
    dtsWorkerOutcome := Except.ok 0,
    formatterOutcome := Except.ok () }

/-- An environment in which transpile batch 0 fails with exit code 1
and every other worker succeeds. -/
def envX : RunEnv :=
  { cpus := 10,
    blockOutcome := Except.ok [],
    projectFiles := [],
    saveOutcome := Except.ok (),
    jsWorkerOutcomes := fun i => Except.ok (if i = 0 then 1 else 0),
    dtsWorkerOutcome := Except.ok 0,
    formatterOutcome := Except.ok () }

/-- An environment in which transpile batch 1 fails with exit code 1
and every other worker succeeds. -/
def envY : RunEnv :=
  { cpus := 10,
    blockOutcome := Except.ok [],
    projectFiles := [],
    saveOutcome := Except.ok (),
    jsWorkerOutcomes := fun i => Except.ok (if i = 1 then 1 else 0),
    dtsWorkerOutcome := Except.ok 0,
    formatterOutcome := Except.ok () }

/-- Concrete generator options with a formatter configured. -/
def optsFmt : CodeGenOptions :=
  { emitTranspiledCode := some false,
    outputDirPath := "/out",
    formatGeneratedCode := some FormatCodeOption.prettier }

/-! ## Helper lemmas -/

/-- Erasing an element that fails the predicate does not change a
filter. -/
theorem filter_erase_false {α : Type} [DecidableEq α] {p : α → Bool} {a : α}
    (ha : p a = false) : ∀ l : List α, (l.erase a).filter p = l.filter p := by
  intro l
  induction l with
  | nil => rfl
  | cons x xs ih =>
    rw [List.erase_cons]
    by_cases hxa : x = a
    · subst hxa
      simp [List.filter_cons, ha]
    · have hb : (x == a) = false := by simpa using hxa
      simp only [hb, Bool.false_eq_true, if_false, List.filter_cons]
      rw [ih]

/-- Erasing an omitted field does not change the fields to emit. -/
theorem fieldsToEmitOf_erase {f : SchemaArg} (hf : f.isOmitted = true)
    (l : List SchemaArg) : fieldsToEmitOf (l.erase f) = fieldsToEmitOf l := by
  unfold fieldsToEmitOf
  exact filter_erase_false (by simp [hf]) l

/-- Every line of the declaration loop is a separator or comes from a
listed field's declaration block. -/
theorem mem_plainFieldsLoop {line : String} :
    ∀ (l : List SchemaArg) (b : Bool), line ∈ plainFieldsLoop l b →
      line = "" ∨ ∃ g, g ∈ l ∧ line ∈ fieldDeclBlock g := by
  intro l
  induction l with
  | nil => intro b h; simp [plainFieldsLoop] at h
  | cons f rest ih =>
    intro b h
    cases rest with
    | nil =>
      simp only [plainFieldsLoop, List.mem_append] at h
      rcases h with h | h
      · exact Or.inr ⟨f, by simp, h⟩
      · cases b with
        | true => simp at h
        | false =>
          simp at h
          exact Or.inl h
    | cons g rest2 =>
      simp only [plainFieldsLoop, List.append_assoc, List.mem_append] at h
      rcases h with h | h | h
      · exact Or.inr ⟨f, by simp, h⟩
      · simp at h
        exact Or.inl h
      · rcases ih b h with h1 | ⟨m, hm, hml⟩
        · exact Or.inl h1
        · exact Or.inr ⟨m, by simp [hm], hml⟩

/-- Every line of the accessor loop is a separator or comes from a
listed field's accessor block. -/
theorem mem_mappedFieldsLoop {line : String} :
    ∀ l : List SchemaArg, line ∈ mappedFieldsLoop l →
      line = "" ∨ ∃ g, g ∈ l ∧ line ∈ accessorBlock g := by
  intro l
  induction l with
  | nil => intro h; simp [mappedFieldsLoop] at h
  | cons f rest ih =>
    intro h
    cases rest with
    | nil =>
      simp only [mappedFieldsLoop] at h
      exact Or.inr ⟨f, by simp, h⟩
    | cons g rest2 =>
      simp only [mappedFieldsLoop, List.append_assoc, List.mem_append] at h
      rcases h with h | h | h
      · exact Or.inr ⟨f, by simp, h⟩
      · simp at h
        exact Or.inl h
      · rcases ih h with h1 | ⟨m, hm, hml⟩
        · exact Or.inl h1
        · exact Or.inr ⟨m, by simp [hm], hml⟩

/-- A listed mapped field's accessor pair appears contiguously in the
accessor loop output. -/
theorem accessorBlock_infix_mappedFieldsLoop {f : SchemaArg} :
    ∀ l : List SchemaArg, f ∈ l → accessorBlock f <:+: mappedFieldsLoop l := by
  intro l
  induction l with
  | nil => intro h; simp at h
  | cons x rest ih =>
    intro hf
    cases rest with
    | nil =>
      have hx : f = x := by simpa using hf
      subst hx
      simp only [mappedFieldsLoop]
      exact List.infix_refl _
    | cons y rest2 =>
      rcases List.mem_cons.mp hf with rfl | hmem
      · exact ⟨[], [""] ++ mappedFieldsLoop (y :: rest2),
          by simp [mappedFieldsLoop]⟩
      · obtain ⟨s, u, hsu⟩ := ih hmem
        refine ⟨accessorBlock x ++ [""] ++ s, u, ?_⟩
        simp only [mappedFieldsLoop]
        rw [← hsu]
        simp [List.append_assoc]

/-- A listed field's declaration block appears contiguously in the
declaration loop output. -/
theorem fieldDeclBlock_infix_plainFieldsLoop {f : SchemaArg} :
    ∀ (l : List SchemaArg) (b : Bool), f ∈ l →
      fieldDeclBlock f <:+: plainFieldsLoop l b := by
  intro l
  induction l with
  | nil => intro b h; simp at h
  | cons x rest ih =>
    intro b hf
    cases rest with
    | nil =>
      have hx : f = x := by simpa using hf
      subst hx
      exact ⟨[], if b then [] else [""], by simp [plainFieldsLoop]⟩
    | cons y rest2 =>
      rcases List.mem_cons.mp hf with rfl | hmem
      · exact ⟨[], [""] ++ plainFieldsLoop (y :: rest2) b,
          by simp [plainFieldsLoop]⟩
      · obtain ⟨s, u, hsu⟩ := ih b hmem
        refine ⟨fieldDeclBlock x ++ [""] ++ s, u, ?_⟩
        simp only [plainFieldsLoop]
        rw [← hsu]
        simp [List.append_assoc]

/-! ## Claim theorems -/

/-- Claim C1: `generateInputTypeText` is a pure function of its
`(inputType, options)` arguments — two invocations with equal inputs
return the same string (import ordering and field ordering included,
since the whole line list is determined by the inputs). -/
theorem generateInputTypeText_deterministic (t1 t2 : InputType)
    (o1 o2 : GeneratorOptions) (ht : t1 = t2) (ho : o1 = o2) :
    generateInputTypeText t1 o1 = generateInputTypeText t2 o2 := by
  subst ht
  subst ho
  rfl

/-- Witness for C1 at a concrete input. -/
theorem generateInputTypeText_deterministic_witness :
    generateInputTypeText tEx oEx = generateInputTypeText tEx oEx :=
  generateInputTypeText_deterministic tEx tEx oEx oEx rfl rfl

/-- Claim C2: an omitted field contributes nothing to the emitted class
body — the body (and the staged class structure) is unchanged when the
omitted field is removed from the field list, every body line is a
separator or attributable to a non-omitted field, and every staged
property comes from a non-omitted field. -/
theorem omitted_field_absent_from_body (t : InputType) (o : GeneratorOptions)
    (f : SchemaArg) (hf : f.isOmitted = true) :
    classBodyLines (t.fields.erase f) = classBodyLines t.fields
    ∧ generateInputTypeClassFromType { t with fields := t.fields.erase f } o =
        generateInputTypeClassFromType t o
    ∧ (∀ line ∈ classBodyLines t.fields,
        line = "" ∨ ∃ g, g ∈ t.fields ∧ g.isOmitted = false ∧
          (line ∈ fieldDeclBlock g ∨ line ∈ accessorBlock g))
    ∧ (∀ p ∈ (generateInputTypeClassFromType t o).properties,
        ∃ g, g ∈ t.fields ∧ g.isOmitted = false ∧
          p = inputTypePropertyOf g) := by
  have hfe : fieldsToEmitOf (t.fields.erase f) = fieldsToEmitOf t.fields :=
    fieldsToEmitOf_erase hf _
  refine ⟨?_, ?_, ?_, ?_⟩
  · simp [classBodyLines, mappedFieldsOf, hfe]
  · simp [generateInputTypeClassFromType, mappedFieldsOf, hfe]
  · intro line hline
    simp only [classBodyLines, List.mem_append] at hline
    rcases hline with h | h
    · rcases mem_plainFieldsLoop _ _ h with rfl | ⟨g, hg, hgl⟩
      · exact Or.inl rfl
      · have hg2 := List.mem_filter.mp hg
        refine Or.inr ⟨g, hg2.1, by simpa using hg2.2, Or.inl hgl⟩
    · rcases mem_mappedFieldsLoop _ h with rfl | ⟨g, hg, hgl⟩
      · exact Or.inl rfl
      · have h1 := List.mem_filter.mp hg
        have h2 := List.mem_filter.mp h1.1
        refine Or.inr ⟨g, h2.1, by simpa using h2.2, Or.inr hgl⟩
  · intro p hp
    simp only [generateInputTypeClassFromType, List.mem_map] at hp
    obtain ⟨g, hg, rfl⟩ := hp
    have hg2 := List.mem_filter.mp hg
    exact ⟨g, hg2.1, by simpa using hg2.2, rfl⟩

/-- Witness for C2 at a concrete type and omitted field. -/
theorem omitted_field_absent_from_body_witness :
    classBodyLines (tEx.fields.erase fOmit) = classBodyLines tEx.fields :=
  (omitted_field_absent_from_body tEx oEx fOmit rfl).1

/-- Claim C4: a non-omitted field with a mapped exposed name is
rendered as a decorated getter/setter pair under the exposed name plus
an undecorated backing declaration, a non-omitted field without a
mapped name is rendered as a single decorated field, and every staged
accessor comes from a mapped, non-omitted field. -/
theorem mapped_field_accessor_pair (t : InputType) (o : GeneratorOptions)
    (f : SchemaArg) (hmem : f ∈ t.fields) (homit : f.isOmitted = false) :
    (f.hasMappedName = true →
        accessorBlock f <:+: classBodyLines t.fields
        ∧ fieldDeclBlock f = [inputFieldDeclLine f]
        ∧ getAccessorOf f ∈ (generateInputTypeClassFromType t o).getAccessors
        ∧ setAccessorOf f ∈ (generateInputTypeClassFromType t o).setAccessors
        ∧ (inputTypePropertyOf f).decorators = [])
    ∧ (f.hasMappedName = false →
        fieldDeclBlock f = [inputFieldDecoratorLine f, inputFieldDeclLine f]
        ∧ fieldDeclBlock f <:+: classBodyLines t.fields
        ∧ inputTypePropertyOf f ∈ (generateInputTypeClassFromType t o).properties
        ∧ (inputTypePropertyOf f).decorators = [inputTypeFieldDecorator f])
    ∧ (∀ g ∈ (generateInputTypeClassFromType t o).getAccessors,
        ∃ m, m ∈ t.fields ∧ m.isOmitted = false ∧ m.hasMappedName = true ∧
          g = getAccessorOf m) := by
  have hfe : f ∈ fieldsToEmitOf t.fields :=
    List.mem_filter.mpr ⟨hmem, by simp [homit]⟩
  refine ⟨?_, ?_, ?_⟩
  · intro hmap
    have hfm : f ∈ mappedFieldsOf t.fields := List.mem_filter.mpr ⟨hfe, hmap⟩
    refine ⟨?_, by simp [fieldDeclBlock, hmap], ?_, ?_,
      by simp [inputTypePropertyOf, hmap]⟩
    · obtain ⟨s, u, hsu⟩ := accessorBlock_infix_mappedFieldsLoop _ hfm
      refine ⟨plainFieldsLoop (fieldsToEmitOf t.fields)
        (mappedFieldsOf t.fields).isEmpty ++ s, u, ?_⟩
      unfold classBodyLines
      rw [← hsu]
      simp [List.append_assoc]
    · simp only [generateInputTypeClassFromType]
      exact List.mem_map_of_mem _ hfm
    · simp only [generateInputTypeClassFromType]
      exact List.mem_map_of_mem _ hfm
  · intro hmap
    refine ⟨by simp [fieldDeclBlock, hmap], ?_, ?_,
      by simp [inputTypePropertyOf, hmap]⟩
    · obtain ⟨s, u, hsu⟩ :=
        fieldDeclBlock_infix_plainFieldsLoop _
          (mappedFieldsOf t.fields).isEmpty hfe
      refine ⟨s, u ++ mappedFieldsLoop (mappedFieldsOf t.fields), ?_⟩
      unfold classBodyLines
      rw [← hsu]
      simp [List.append_assoc]
    · simp only [generateInputTypeClassFromType]
      exact List.mem_map_of_mem _ hfe
  · intro g hg
    simp only [generateInputTypeClassFromType, List.mem_map] at hg
    obtain ⟨m, hm, rfl⟩ := hg
    have h1 := List.mem_filter.mp hm
    have h2 := List.mem_filter.mp h1.1
    exact ⟨m, h2.1, by simpa using h2.2, h1.2, rfl⟩

/-- Witness for C4 at a concrete mapped field. -/
theorem mapped_field_accessor_pair_witness :
    accessorBlock fMapped <:+: classBodyLines tEx.fields :=
  ((mapped_field_accessor_pair tEx oEx fMapped (by decide) rfl).1 rfl).1

/-- `dedupSort` output is sorted. -/
theorem dedupSort_sorted (xs : List String) : (dedupSort xs).Sorted (· ≤ ·) := by
  unfold dedupSort
  exact List.sorted_insertionSort _ _

/-- `dedupSort` output has no duplicates. -/
theorem dedupSort_nodup (xs : List String) : (dedupSort xs).Nodup := by
  unfold dedupSort
  exact ((List.perm_insertionSort _ _).nodup_iff).mpr xs.nodup_dedup

/-- `dedupSort` preserves membership. -/
theorem mem_dedupSort {n : String} {xs : List String} :
    n ∈ dedupSort xs ↔ n ∈ xs := by
  unfold dedupSort
  rw [(List.perm_insertionSort _ _).mem_iff, List.mem_dedup]

/-- Claim C3: the cross-referenced input-type import list is sorted and
duplicate-free, never contains a self-import, and holds exactly the
input-object type names referenced by the fields (other than the type's
own name); the enum import list is likewise sorted, duplicate-free and
holds exactly the referenced enum names. -/
theorem inputType_imports_sorted_dedup_no_self (t : InputType) :
    (inputTypeImportNames t).Sorted (· ≤ ·)
    ∧ (inputTypeImportNames t).Nodup
    ∧ t.typeName ∉ inputTypeImportNames t
    ∧ (∀ n, n ∈ inputTypeImportNames t ↔
        (n ≠ t.typeName ∧ ∃ f, f ∈ t.fields ∧
          f.selectedInputType.location = "inputObjectTypes" ∧
          f.selectedInputType.type = n))
    ∧ (enumImportNames t).Sorted (· ≤ ·)
    ∧ (enumImportNames t).Nodup
    ∧ (∀ n, n ∈ enumImportNames t ↔
        ∃ f, f ∈ t.fields ∧ f.selectedInputType.location = "enumTypes" ∧
          f.selectedInputType.type = n) := by
  have hiff : ∀ n, n ∈ inputTypeImportNames t ↔
      (n ≠ t.typeName ∧ ∃ f, f ∈ t.fields ∧
        f.selectedInputType.location = "inputObjectTypes" ∧
        f.selectedInputType.type = n) := by
    intro n
    unfold inputTypeImportNames
    rw [mem_dedupSort]
    simp only [List.mem_filter, List.mem_map, bne_iff_ne, ne_eq, beq_iff_eq]
    constructor
    · rintro ⟨⟨f, ⟨hf, hloc⟩, rfl⟩, hne⟩
      exact ⟨hne, f, hf, hloc, rfl⟩
    · rintro ⟨hne, f, hf, hloc, hty⟩
      exact ⟨⟨f, ⟨hf, hloc⟩, hty⟩, hne⟩
  have hiffE : ∀ n, n ∈ enumImportNames t ↔
      ∃ f, f ∈ t.fields ∧ f.selectedInputType.location = "enumTypes" ∧
        f.selectedInputType.type = n := by
    intro n
    unfold enumImportNames
    rw [mem_dedupSort]
    simp only [List.mem_map, List.mem_filter, beq_iff_eq]
    constructor
    · rintro ⟨ft, ⟨⟨f, hf, rfl⟩, hloc⟩, rfl⟩
      exact ⟨f, hf, hloc, rfl⟩
    · rintro ⟨f, hf, hloc, hty⟩
      exact ⟨f.selectedInputType, ⟨⟨f, hf, rfl⟩, hloc⟩, hty⟩
  refine ⟨dedupSort_sorted _, dedupSort_nodup _, ?_, hiff,
    dedupSort_sorted _, dedupSort_nodup _, hiffE⟩
  intro h
  exact ((hiff _).mp h).1 rfl

/-- Witness for C3 at a concrete input type. -/
theorem inputType_imports_sorted_dedup_no_self_witness :
    (inputTypeImportNames tEx).Nodup ∧ tEx.typeName ∉ inputTypeImportNames tEx :=
  ⟨(inputType_imports_sorted_dedup_no_self tEx).2.1,
   (inputType_imports_sorted_dedup_no_self tEx).2.2.1⟩

/-- Counterexample for C5: the emitted custom-scalars import line of a
type with no fields at all still imports the `DecimalJSScalar` binding,
although no field of the `Decimal` scalar kind is present — so a custom
scalar binding can be imported for a scalar kind no field of the type
uses. -/
theorem customScalars_decimal_always_imported :
    (generateInputTypeTextLines tEmpty oEx).get? 3 =
      some "import \x7b DecimalJSScalar \x7d from \"../../scalars\";"
    ∧ ¬∃ f, f ∈ tEmpty.fields ∧ f.selectedInputType.type = "Decimal" := by
  refine ⟨rfl, ?_⟩
  rintro ⟨f, hf, -⟩
  simp [tEmpty] at hf

/-- Claim C5 (amended): the custom-scalars import line (the fourth line
of the emitted file) imports `BytesScalar` exactly when some field's
selected input type is `Bytes`; the `DecimalJSScalar` binding is there
unconditionally, whether or not a `Decimal` field is present. -/
theorem customScalars_import_line_spec (t : InputType) (o : GeneratorOptions) :
    (generateInputTypeTextLines t o).get? 3 = some (customScalarsImportLine t)
    ∧ (customScalarsImportLine t =
        "import \x7b DecimalJSScalar, BytesScalar \x7d from \"../../scalars\";"
        ↔ ∃ f, f ∈ t.fields ∧ f.selectedInputType.type = "Bytes")
    ∧ (customScalarsImportLine t =
        "import \x7b DecimalJSScalar \x7d from \"../../scalars\";"
        ↔ ¬∃ f, f ∈ t.fields ∧ f.selectedInputType.type = "Bytes") := by
  have hbytes : hasBytesField t = true ↔
      ∃ f, f ∈ t.fields ∧ f.selectedInputType.type = "Bytes" := by
    unfold hasBytesField
    simp [List.any_eq_true]
  refine ⟨rfl, ?_, ?_⟩
  · cases hb : hasBytesField t with
    | false =>
      have hline : customScalarsImportLine t =
          "import \x7b DecimalJSScalar \x7d from \"../../scalars\";" := by
        unfold customScalarsImportLine
        rw [hb]
        rfl
      rw [hline]
      constructor
      · intro h
        exact absurd h (by decide)
      · intro h
        exact absurd (hbytes.mpr h) (by rw [hb]; decide)
    | true =>
      have hline : customScalarsImportLine t =
          "import \x7b DecimalJSScalar, BytesScalar \x7d from \"../../scalars\";" := by
        unfold customScalarsImportLine
        rw [hb]
        rfl
      rw [hline]
      constructor
      · intro _
        exact hbytes.mp hb
      · intro _
        rfl
  · cases hb : hasBytesField t with
    | false =>
      have hline : customScalarsImportLine t =
          "import \x7b DecimalJSScalar \x7d from \"../../scalars\";" := by
        unfold customScalarsImportLine
        rw [hb]
        rfl
      rw [hline]
      constructor
      · intro _
        intro h
        exact absurd (hbytes.mpr h) (by rw [hb]; decide)
      · intro _
        rfl
    | true =>
      have hline : customScalarsImportLine t =
          "import \x7b DecimalJSScalar, BytesScalar \x7d from \"../../scalars\";" := by
        unfold customScalarsImportLine
        rw [hb]
        rfl
      rw [hline]
      constructor
      · intro h
        exact absurd h (by decide)
      · intro h
        exact absurd (hbytes.mp hb) h

/-- Witness for the amended C5 at a concrete input type. -/
theorem customScalars_import_line_spec_witness :
    (generateInputTypeTextLines tEx oEx).get? 3 =
      some (customScalarsImportLine tEx) :=
  (customScalars_import_line_spec tEx oEx).1

/-- Claim C6: when the block allow-list excludes `inputs`, the input
block generator performs no write, stages nothing, and returns zero
items with no written paths; when it includes `inputs`, it writes
exactly one file per input type of the Document (rendered by
`generateInputTypeText`), stages exactly the barrel file, and reports
the number of input types together with the written paths. -/
theorem inputBlockGenerator_generate_spec (doc : DmmfDocument)
    (o : GeneratorOptions) (base : String) :
    (doc.shouldGenerateBlock ("inputs") = false →
       (InputBlockGenerator.generate doc o base).metrics.itemsGenerated = 0
       ∧ (InputBlockGenerator.generate doc o base).metrics.directWrittenFilePaths
           = none
       ∧ (InputBlockGenerator.generate doc o base).fsWrites = []
       ∧ (InputBlockGenerator.generate doc o base).stagedFiles = [])
    ∧ (doc.shouldGenerateBlock ("inputs") = true →
       (InputBlockGenerator.generate doc o base).metrics.itemsGenerated =
         doc.schema.inputTypes.length
       ∧ (InputBlockGenerator.generate doc o base).fsWrites =
           doc.schema.inputTypes.map (fun t =>
             (posixJoin [posixJoin [base, resolversFolderName, inputsFolderName],
                t.typeName ++ ".ts"],
              generateInputTypeText t o))
       ∧ (InputBlockGenerator.generate doc o base).metrics.directWrittenFilePaths
           = some ((InputBlockGenerator.generate doc o base).fsWrites.map
               Prod.fst)
       ∧ (InputBlockGenerator.generate doc o base).stagedFiles =
           [posixJoin [posixJoin [base, resolversFolderName, inputsFolderName],
              "index.ts"]]) := by
  constructor
  · intro h
    simp [InputBlockGenerator.generate, h]
  · intro h
    simp [InputBlockGenerator.generate, h]

/-- Witness for C6: one Document excluding and one including the
`inputs` block. -/
theorem inputBlockGenerator_generate_spec_witness :
    (InputBlockGenerator.generate docExcl oEx ("/out")).fsWrites = []
    ∧ (InputBlockGenerator.generate docIncl oEx ("/out")).metrics.itemsGenerated
        = docIncl.schema.inputTypes.length :=
  ⟨((inputBlockGenerator_generate_spec docExcl oEx ("/out")).1
      (by decide)).2.2.1,
   ((inputBlockGenerator_generate_spec docIncl oEx ("/out")).2
      (by decide)).1⟩

/-- Claim C7: with a formatter configured, a formatter failure changes
neither the success of the `generate` call nor its written paths; when
the run completes, the failure shows up as a warning in the logging
callback messages. -/
theorem formatter_failure_nonfatal (env : RunEnv) (opts : CodeGenOptions)
    (err : String)
    (hfmt : (resolveFormatGeneratedCodeOption opts.formatGeneratedCode).isSome
      = true) :
    isOkResult (CodeGenerator.generate
        { env with formatterOutcome := Except.error err } opts) =
      isOkResult (CodeGenerator.generate
        { env with formatterOutcome := Except.ok () } opts)
    ∧ Except.map RunResult.writtenFilePaths
        (CodeGenerator.generate
          { env with formatterOutcome := Except.error err } opts) =
      Except.map RunResult.writtenFilePaths
        (CodeGenerator.generate
          { env with formatterOutcome := Except.ok () } opts)
    ∧ (∀ r, CodeGenerator.generate
          { env with formatterOutcome := Except.error err } opts =
          Except.ok r →
        ("Warning: Code formatting failed: " ++ err) ∈ r.logs) := by
  obtain ⟨tool, htool⟩ := Option.isSome_iff_exists.mp hfmt
  have hfe : ∀ (x : Except String Unit) (b : Except String (List String))
      (c : Bool) (w : List String),
      CodeGenerator.emitStep
        { cpus := env.cpus, blockOutcome := b,
          projectFiles := env.projectFiles, saveOutcome := env.saveOutcome,
          jsWorkerOutcomes := env.jsWorkerOutcomes,
          dtsWorkerOutcome := env.dtsWorkerOutcome,
          formatterOutcome := x } c w =
        CodeGenerator.emitStep env c w := fun _ _ _ _ => rfl
  cases hb : env.blockOutcome with
  | error e =>
    simp [CodeGenerator.generate, hb]
  | ok written =>
    cases hes : CodeGenerator.emitStep env
        (CodeGenerator.resolveEmitTranspiledCode opts.emitTranspiledCode
          opts.outputDirPath) written with
    | error e =>
      simp [CodeGenerator.generate, hfe, hb, hes]
    | ok u =>
      cases u
      refine ⟨?_, ?_, ?_⟩
      · simp [CodeGenerator.generate, hfe, hb, hes, isOkResult]
      · simp [CodeGenerator.generate, hfe, hb, hes, Except.map]
      · intro r hr
        simp only [CodeGenerator.generate, hfe, hb, hes] at hr
        cases hr
        simp [CodeGenerator.formatStepLogs, htool]

/-- Witness for C7 at a concrete all-success environment with a
formatter configured. -/
theorem formatter_failure_nonfatal_witness :
    isOkResult (CodeGenerator.generate
        { envOk with formatterOutcome := Except.error "boom" } optsFmt) =
      isOkResult (CodeGenerator.generate
        { envOk with formatterOutcome := Except.ok () } optsFmt) :=
  (formatter_failure_nonfatal envOk optsFmt ("boom") (by decide)).1

/-- `Promise.all` over settled members resolves exactly when every
member resolved. -/
theorem promiseAll_ok_iff (rs : List (Except String Unit)) :
    promiseAll rs = Except.ok () ↔ ∀ r ∈ rs, r = Except.ok () := by
  induction rs with
  | nil => simp [promiseAll]
  | cons r rest ih =>
    cases r with
    | error e =>
      have h1 : promiseAll (Except.error e :: rest) = Except.error e := rfl
      rw [h1]
      simp
    | ok u =>
      cases u
      have h1 : promiseAll (Except.ok () :: rest) = promiseAll rest := rfl
      rw [h1, ih]
      simp

/-- A worker promise resolves exactly when the worker exits with
code 0. -/
theorem workerSettle_ok_iff (stage : String) (o : Except String Nat) :
    workerSettle stage o = Except.ok () ↔ o = Except.ok 0 := by
  cases o with
  | error e => simp [workerSettle]
  | ok c =>
    by_cases hc : c = 0
    · subst hc
      simp [workerSettle]
    · simp [workerSettle, hc]

/-- Claim C8 (amended): `fastEmitTranspiledCode` completes exactly when
every transpile worker and the declaration worker exit with code 0,
and on failure it rejects with an error identifying the failed stage
(`JS emission failed: …` or `DTS emission failed: …`) and the worker's
failure reason — but not the identity of the failed batch. -/
theorem fastEmit_success_iff_and_stage_error (env : RunEnv)
    (files : List String) :
    (CodeGenerator.fastEmitTranspiledCode env files = Except.ok () ↔
      (∀ i < (jsBatches files env.cpus).length,
        env.jsWorkerOutcomes i = Except.ok 0)
      ∧ env.dtsWorkerOutcome = Except.ok 0)
    ∧ (∀ e, CodeGenerator.fastEmitTranspiledCode env files = Except.error e →
        (∃ r, e = "JS emission failed: " ++ r)
        ∨ (∃ r, e = "DTS emission failed: " ++ r)) := by
  cases hjs : promiseAll ((List.range (jsBatches files env.cpus).length).map
      (fun i => workerSettle ("JS") (env.jsWorkerOutcomes i))) with
  | error r =>
    have hne : CodeGenerator.fastEmitTranspiledCode env files =
        Except.error ("JS emission failed: " ++ r) := by
      simp [CodeGenerator.fastEmitTranspiledCode, hjs]
    constructor
    · rw [hne]
      constructor
      · intro h
        exact absurd h (by simp)
      · rintro ⟨hall, -⟩
        have hok : promiseAll
            ((List.range (jsBatches files env.cpus).length).map
              (fun i => workerSettle ("JS") (env.jsWorkerOutcomes i))) =
            Except.ok () := by
          refine (promiseAll_ok_iff _).mpr ?_
          intro x hx
          obtain ⟨i, hi, rfl⟩ := List.mem_map.mp hx
          exact (workerSettle_ok_iff _ _).mpr (hall i (List.mem_range.mp hi))
        rw [hjs] at hok
        exact absurd hok (by simp)
    · intro e he
      rw [hne] at he
      left
      injection he with h
      exact ⟨r, h.symm⟩
  | ok u =>
    cases u
    cases hdts : workerSettle ("DTS") env.dtsWorkerOutcome with
    | error r =>
      have hne : CodeGenerator.fastEmitTranspiledCode env files =
          Except.error ("DTS emission failed: " ++ r) := by
        simp [CodeGenerator.fastEmitTranspiledCode, hjs, hdts]
      constructor
      · rw [hne]
        constructor
        · intro h
          exact absurd h (by simp)
        · rintro ⟨-, hd⟩
          have hok : workerSettle ("DTS") env.dtsWorkerOutcome =
              Except.ok () := (workerSettle_ok_iff _ _).mpr hd
          rw [hdts] at hok
          exact absurd hok (by simp)
      · intro e he
        rw [hne] at he
        right
        injection he with h
        exact ⟨r, h.symm⟩
    | ok u2 =>
      cases u2
      have hok : CodeGenerator.fastEmitTranspiledCode env files =
          Except.ok () := by
        simp [CodeGenerator.fastEmitTranspiledCode, hjs, hdts]
      constructor
      · rw [hok]
        constructor
        · intro _
          constructor
          · intro i hi
            have hmem := List.mem_map_of_mem
              (fun i => workerSettle ("JS") (env.jsWorkerOutcomes i))
              (List.mem_range.mpr hi)
            have hx := (promiseAll_ok_iff _).mp hjs _ hmem
            exact (workerSettle_ok_iff _ _).mp hx
          · exact (workerSettle_ok_iff _ _).mp hdts
        · intro _
          rfl
      · intro e he
        rw [hok] at he
        exact absurd he (by simp)

/-- Witness for the amended C8 at a concrete all-success environment. -/
theorem fastEmit_success_iff_and_stage_error_witness :
    CodeGenerator.fastEmitTranspiledCode envOk ["a.ts"] = Except.ok () :=
  (fastEmit_success_iff_and_stage_error envOk ["a.ts"]).1.mpr
    ⟨fun _ _ => rfl, rfl⟩

/-- Counterexample for C8: two runs over the same two-batch file list,
one in which batch 0 fails with exit code 1 and one in which batch 1
does, reject with the very same error value — the rejection carries
the stage but no batch identity. -/
theorem fastEmit_error_lacks_batch_identity :
    CodeGenerator.fastEmitTranspiledCode envX ["f1.ts", "f2.ts"] =
      CodeGenerator.fastEmitTranspiledCode envY ["f1.ts", "f2.ts"]
    ∧ isOkResult
        (CodeGenerator.fastEmitTranspiledCode envX ["f1.ts", "f2.ts"]) = false
    ∧ (jsBatches ["f1.ts", "f2.ts"] envX.cpus).length = 2
    ∧ envX.jsWorkerOutcomes 0 = Except.ok 1
    ∧ envX.jsWorkerOutcomes 1 = Except.ok 0
    ∧ envY.jsWorkerOutcomes 0 = Except.ok 0
    ∧ envY.jsWorkerOutcomes 1 = Except.ok 1 :=
  ⟨rfl, rfl, rfl, rfl, rfl, rfl, rfl⟩

/-- Concatenating the batches gives back the batched list. -/
theorem chunkListAux_flatten {α : Type} {bs : Nat} (hbs : bs ≠ 0) :
    ∀ (fuel : Nat) (l : List α), l.length ≤ fuel →
      (chunkListAux bs fuel l).flatten = l := by
  intro fuel
  induction fuel with
  | zero =>
    intro l hl
    have h0 : l = [] := List.eq_nil_of_length_eq_zero (Nat.le_zero.mp hl)
    subst h0
    rfl
  | succ n ih =>
    intro l hl
    cases l with
    | nil => rfl
    | cons x xs =>
      have hdrop : ((x :: xs).drop bs).length ≤ n := by
        simp only [List.length_drop, List.length_cons]
        simp only [List.length_cons] at hl
        omega
      calc (chunkListAux bs (n + 1) (x :: xs)).flatten
          = (x :: xs).take bs ++ (chunkListAux bs n ((x :: xs).drop bs)).flatten
            := by simp [chunkListAux]
        _ = (x :: xs).take bs ++ (x :: xs).drop bs := by rw [ih _ hdrop]
        _ = x :: xs := List.take_append_drop _ _

/-- If the list fits in `W` batches of size `bs`, at most `W` batches
are produced. -/
theorem chunkListAux_length_le {α : Type} {bs : Nat} (hbs : bs ≠ 0) :
    ∀ (W fuel : Nat) (l : List α), l.length ≤ fuel → l.length ≤ bs * W →
      (chunkListAux bs fuel l).length ≤ W := by
  intro W
  induction W with
  | zero =>
    intro fuel l hf hw
    have h0 : l = [] := by
      refine List.eq_nil_of_length_eq_zero ?_
      simp only [Nat.mul_zero] at hw
      omega
    subst h0
    cases fuel <;> simp [chunkListAux]
  | succ W ih =>
    intro fuel l hf hw
    cases l with
    | nil => cases fuel <;> simp [chunkListAux]
    | cons x xs =>
      cases fuel with
      | zero =>
        simp only [List.length_cons] at hf
        omega
      | succ n =>
        have hta : chunkListAux bs (n + 1) (x :: xs) =
            (x :: xs).take bs :: chunkListAux bs n ((x :: xs).drop bs) := by
          simp [chunkListAux]
        rw [hta]
        simp only [List.length_cons]
        have h1 : ((x :: xs).drop bs).length ≤ n := by
          simp only [List.length_drop, List.length_cons]
          simp only [List.length_cons] at hf
          omega
        have h2 : ((x :: xs).drop bs).length ≤ bs * W := by
          simp only [List.length_drop, List.length_cons]
          rw [Nat.mul_succ] at hw
          simp only [List.length_cons] at hw
          omega
        have h3 := ih n ((x :: xs).drop bs) h1 h2
        omega

/-- Claim C9: for a nonempty file list the transpile batches number at
least one, at most eight, and at most `max 1 (cpus - 2)`; their
concatenation is exactly the file list; and (for a duplicate-free file
list) the batches are pairwise disjoint, so every path lands in
exactly one batch. -/
theorem jsBatches_partition (files : List String) (cpus : Nat)
    (h : files ≠ []) :
    1 ≤ (jsBatches files cpus).length
    ∧ (jsBatches files cpus).length ≤ 8
    ∧ (jsBatches files cpus).length ≤ max 1 (cpus - 2)
    ∧ (jsBatches files cpus).flatten = files
    ∧ (files.Nodup → (jsBatches files cpus).Pairwise List.Disjoint) := by
  have hW1 : 1 ≤ jsWorkerCount cpus := le_min (le_max_left _ _) (by norm_num)
  have hWle8 : jsWorkerCount cpus ≤ 8 := min_le_right _ _
  have hWlemax : jsWorkerCount cpus ≤ max 1 (cpus - 2) := min_le_left _ _
  have hlen : 1 ≤ files.length := by
    cases files with
    | nil => exact absurd rfl h
    | cons a l => simp
  have hbs : ceilNatDiv files.length (jsWorkerCount cpus) ≠ 0 := by
    unfold ceilNatDiv
    have h1 : 1 ≤ (files.length + jsWorkerCount cpus - 1) / jsWorkerCount cpus :=
      (Nat.le_div_iff_mul_le (by omega)).mpr (by omega)
    omega
  have hmul : files.length ≤
      ceilNatDiv files.length (jsWorkerCount cpus) * jsWorkerCount cpus := by
    unfold ceilNatDiv
    have hdm := Nat.div_add_mod (files.length + jsWorkerCount cpus - 1)
      (jsWorkerCount cpus)
    have hmod : (files.length + jsWorkerCount cpus - 1) % jsWorkerCount cpus <
        jsWorkerCount cpus := Nat.mod_lt _ (by omega)
    rw [Nat.mul_comm]
    omega
  have hjoin : (jsBatches files cpus).flatten = files :=
    chunkListAux_flatten hbs files.length files le_rfl
  have hle : (jsBatches files cpus).length ≤ jsWorkerCount cpus :=
    chunkListAux_length_le hbs (jsWorkerCount cpus) files.length files
      le_rfl hmul
  refine ⟨?_, by omega, by omega, hjoin, ?_⟩
  · cases hf : files with
    | nil => exact absurd hf h
    | cons x xs =>
      subst hf
      simp [jsBatches, chunkList, chunkListAux]
  · intro hnd
    have hndj : (jsBatches files cpus).flatten.Nodup := by
      rw [hjoin]
      exact hnd
    exact (List.nodup_flatten.mp hndj).2

/-- Witness for C9 at a concrete file list. -/
theorem jsBatches_partition_witness :
    (jsBatches ["a.ts", "b.ts", "c.ts"] 4).flatten = ["a.ts", "b.ts", "c.ts"] :=
  (jsBatches_partition (["a.ts", "b.ts", "c.ts"]) 4 (by decide)).2.2.2.1

/-- Claim C10: with `emitTranspiledCode` unset, compiled mode is chosen
exactly when the output directory path contains the substring
`node_modules`; an explicit setting decides the mode by itself. -/
theorem emit_mode_resolution :
    (∀ p : String,
        CodeGenerator.resolveEmitTranspiledCode none p = true ↔
          "node_modules".toList <:+: p.toList)
    ∧ (∀ (b : Bool) (p : String),
        CodeGenerator.resolveEmitTranspiledCode (some b) p = b) := by
  constructor
  · intro p
    simp [CodeGenerator.resolveEmitTranspiledCode, stringIncludes]
  · intro b p
    rfl

/-- Witness for C10 at concrete settings. -/
theorem emit_mode_resolution_witness :
    CodeGenerator.resolveEmitTranspiledCode (some true) "/out" = true :=
  emit_mode_resolution.2 true ("/out")
